import Mathlib

/-!
Shallow embedding of `src/search.py`, a command-line tool that assembles
(and optionally invokes) `find`/`grep` command lines.  Python dictionaries
that rely on insertion order are modelled as association lists; process
interaction (child processes, stdin dialogs, file reads) is modelled as an
explicit event trace / explicit inputs.  All string manipulation is done on
`String` (a wrapper around `List Char`), matching Python's `str` operations
character by character.
-/

namespace SearchTool

/-- Python substring membership test `needle in haystack`, on char lists:
true iff `needle` occurs contiguously in the haystack. -/
def str_contains_aux (needle : List Char) : List Char → Bool
  | [] => needle.isEmpty
  | c :: rest => needle.isPrefixOf (c :: rest) || str_contains_aux needle rest

/-- Python's `pat in s` substring test (used by `invoke_command` as
`'-size' in command`). -/
def strContains (s pat : String) : Bool :=
  str_contains_aux pat.data s.data

/-- Python `s.replace('"', '\\"')`: every double-quote character is replaced
by backslash + double quote (used by `parse_arguments` and
`parse_default_paths_from_file`). -/
def escape_quotes (s : String) : String :=
  ⟨(s.data.map (fun c => if c = '"' then ['\\', '"'] else [c])).flatten⟩

/-- The whitespace characters stripped by Python's `str.rstrip()` with no
argument (ASCII subset, which covers every character this tool can meet in
its own data). -/
def is_python_space (c : Char) : Bool :=
  c = ' ' || c = '\t' || c = '\n' || c = '\r' || c = '\x0b' || c = '\x0c'

/-- Python `s.rstrip()`: remove all trailing whitespace characters. -/
def rstrip (s : String) : String :=
  ⟨(s.data.reverse.dropWhile is_python_space).reverse⟩

/-- Models `os.path.expanduser` for the cases reachable here: a leading `~`
standing alone or followed by `/` is replaced by the invoking user's home
directory (passed explicitly); a `~user` form for an unknown user and all
other strings are returned unchanged. -/
def expanduser (home : String) (s : String) : String :=
  match s.data with
  | '~' :: rest =>
    match rest with
    | [] => home
    | c :: _ => if c = '/' then ⟨home.data ++ rest⟩ else s
  | _ => s

/-- Iterating a Python text file (or splitting a string) yields each line
with its trailing newline kept; a final chunk without a newline is yielded
as is, and an empty file yields no lines. -/
def python_lines_aux : List Char → List Char → List String
  | [], acc => if acc.isEmpty then [] else [⟨acc.reverse⟩]
  | c :: rest, acc =>
    if c = '\n' then ⟨(c :: acc).reverse⟩ :: python_lines_aux rest []
    else python_lines_aux rest (c :: acc)

/-- All lines of a file's contents, Python file-iteration style. -/
def python_lines (s : String) : List String :=
  python_lines_aux s.data []

/-- Python `s.split(',')`: split on every comma, keeping empty chunks, and
yielding one (possibly empty) chunk for an input without commas. -/
def split_on_commas_aux : List Char → List Char → List String
  | [], acc => [⟨acc.reverse⟩]
  | c :: rest, acc =>
    if c = ',' then ⟨acc.reverse⟩ :: split_on_commas_aux rest []
    else split_on_commas_aux rest (c :: acc)

/-- Python `s.split(',')` as used on the file-type selector operand. -/
def split_on_commas (s : String) : List String :=
  split_on_commas_aux s.data []

/-- Python `key.startswith(token)`. -/
def startswith (key token : String) : Bool :=
  token.data.isPrefixOf key.data

/-- A file-type category entry of the embedded configuration: an optional
`find -size` operand, the match flag (`True` = extensions are matched,
`False` = extensions are excluded; the source calls this field `match`,
which is a keyword here), and the extension list (non-empty in the
hand-authored table; the source indexes `extensions[0]`). -/
structure FileTypeCategory where
  size : String
  matchFlag : Bool
  extensions : List String
deriving DecidableEq, Repr

/-- The hand-authored part of `create_file_type_categories`, in source
(insertion) order. -/
def hand_authored_file_type_categories : List (String × FileTypeCategory) := [
  ("text", ⟨"", true, ["txt", "md", "markdown", "csv", "url"]⟩),
  ("markup-text", ⟨"", true, ["tex", "htm", "html", "rtf"]⟩),
  ("code", ⟨"", true, ["c", "cpp", "cc", "h", "hpp", "java", "swift", "php", "rb", "el", "lsp", "m", "cp"]⟩),
  ("configuration", ⟨"", true, ["cfg", "reg", "yaml", "ini", "xml", "json"]⟩),
  ("script", ⟨"", true, ["sh", "py", "pl", "mk", "mak", "cmake", "bat", "ps1", "vb", "vbs", "ws", "scpt", "command", "tcl", "vim", "r", "lua"]⟩),
  ("image", ⟨"+4k", true, ["png", "jpg", "bmp", "gif", "jpeg", "svg", "tif", "tiff"]⟩),
  ("audio", ⟨"+10k", true, ["mp3", "wma", "ogg", "wav", "midi", "aif"]⟩),
  ("video", ⟨"+500k", true, ["avi", "mkv", "mpg", "mpeg", "h264", "mov", "mp4", "vob", "flv", "3gp", "wmv"]⟩),
  ("certificate", ⟨"", true, ["cer", "crt", "der", "pem", "crl"]⟩),
  ("archive", ⟨"", true, ["7z", "zip", "gz", "tgz", "z", "rar", "rpm", "pkg", "deb"]⟩)]

/-- `create_file_type_categories`: the full registry, an insertion-ordered
mapping.  For every hand-authored key not starting with `not-`, a twin entry
keyed `not-<key>` with `match = False` is appended (Python `dict.update`
appends the new keys after the existing ones, in the loop's order). -/
def create_file_type_categories : List (String × FileTypeCategory) :=
  hand_authored_file_type_categories ++
    (hand_authored_file_type_categories.filter
      (fun p => !(startswith p.1 "not-"))).map
      (fun p => ("not-" ++ p.1, { p.2 with matchFlag := false }))

/-- `self.file_type_choices`, built in the same loop: each hand-authored key
immediately followed by its `not-` twin's key. -/
def file_type_choices : List String :=
  (hand_authored_file_type_categories.map
    (fun p => if startswith p.1 "not-" then [p.1] else [p.1, "not-" ++ p.1])).flatten

/-- The inner loop of `find_file_type_cat_or_exit`: the first registry key
(in insertion order) that starts with the requested token wins. -/
def find_first_matching_category (token : String) : Option FileTypeCategory :=
  (create_file_type_categories.find? (fun p => startswith p.1 token)).map Prod.snd

/-- The observable outcome of the `else` branch of
`find_file_type_cat_or_exit`: the error text names the whole `-f` operand,
the full `file_type_choices` list is printed, and `exit(1)` is called. -/
structure UnknownFileTypeExit where
  selector : String
  choices : List String
  exit_code : Nat
deriving DecidableEq, Repr

/-- Result of `find_file_type_cat_or_exit`: either the resolved category
list or the error/exit event. -/
inductive ResolveOutcome where
  | ok (cats : List FileTypeCategory)
  | exit (err : UnknownFileTypeExit)
deriving DecidableEq, Repr

/-- The token loop of `find_file_type_cat_or_exit`: resolve tokens left to
right, appending each hit; the first token with no matching key aborts the
whole resolution with the exit outcome. -/
def resolve_file_types (selector : String) : List String → ResolveOutcome
  | [] => .ok []
  | t :: ts =>
    match find_first_matching_category t with
    | some cat =>
      match resolve_file_types selector ts with
      | .ok cats => .ok (cat :: cats)
      | .exit e => .exit e
    | none => .exit ⟨selector, file_type_choices, 1⟩

/-- `find_file_type_cat_or_exit`: split the `-f` operand on commas and
resolve every token. -/
def find_file_type_cat_or_exit (selector : String) : ResolveOutcome :=
  resolve_file_types selector (split_on_commas selector)

/-- The six validated operands of the last-modified option (argparse
restricts the input to these choices). -/
inductive Recency where
  | y | q | m | w | d | t
deriving DecidableEq, Repr

/-- `lm_dict` inside `add_time_filter`. -/
def lm_dict : Recency → String
  | .y => "-mtime -365 "
  | .q => "-mtime -90 "
  | .m => "-mtime -30 "
  | .w => "-mtime -7 "
  | .d => "-mtime -1 "
  | .t => "-mmin -720 "

/-- `add_time_filter` appends the looked-up window; `prepare_arguments_for_find`
only calls it when the last-modified option is present. -/
def time_filter : Option Recency → String
  | some r => lm_dict r
  | none => ""

/-- The parsed command-line options (`self.args`), with argparse defaults. -/
structure Args where
  search_path : String := "."
  file_pattern : String := "*"
  grep : Option String := none
  default_path_file : Option String := none
  file_type : Option String := none
  show_command : Bool := false
  verbose : Bool := false
  more_context : Option String := none
  last_modified : Option Recency := none
  case_sensitive : Bool := false
deriving DecidableEq, Repr

/-- The tail of `parse_arguments`: double quotes in the search path, the
file pattern and the grep pattern are escaped right after parsing. -/
def parse_arguments (raw : Args) : Args :=
  { raw with
    search_path := escape_quotes raw.search_path
    file_pattern := escape_quotes raw.file_pattern
    grep := raw.grep.map escape_quotes }

/-- `self.case_insensitive`: the letter inserted into `find` name tests
(empty for a case-sensitive search). -/
def case_insensitive_flag (case_sensitive : Bool) : String :=
  if case_sensitive then "" else "i"

/-- The one `-size` operand added by `prepare_arguments_for_find`: present
exactly when a single category was resolved and its size field is
non-empty (`find` only takes one -size argument). -/
def size_filter : List FileTypeCategory → String
  | [c] => if c.size = "" then "" else "-size " ++ c.size ++ " "
  | _ => ""

/-- One category's run of name tests inside `add_file_ext_filter`: a
match category ORs one name test per extension, an exclude category ANDs
one negated name test per extension; the first test carries no connective. -/
def ext_terms (ci pattern : String) (cat : FileTypeCategory) : String :=
  match cat.extensions with
  | [] => ""
  | e :: es =>
    if cat.matchFlag then
      "-" ++ ci ++ "name '" ++ pattern ++ "." ++ e ++ "' " ++
        String.join (es.map (fun x => "-o -" ++ ci ++ "name '" ++ pattern ++ "." ++ x ++ "' "))
    else
      "-not -" ++ ci ++ "name '" ++ pattern ++ "." ++ e ++ "' " ++
        String.join (es.map (fun x => "-a -not -" ++ ci ++ "name '" ++ pattern ++ "." ++ x ++ "' "))

/-- `add_file_ext_filter`: the parenthesized group over all selected
categories; every category after the first is introduced with `-o `. -/
def add_file_ext_filter (cats : List FileTypeCategory) (pattern ci : String) : String :=
  "\\( " ++
    (match cats with
     | [] => ""
     | c :: cs =>
       ext_terms ci pattern c ++
         String.join (cs.map (fun c2 => "-o " ++ ext_terms ci pattern c2))) ++
  " \\) "

/-- The `find` argument string for an already-resolved category list:
version-control exclusion, then the optional size operand, then the
extension group, then the optional time window. -/
def find_arg_of_categories (cats : List FileTypeCategory)
    (file_pattern ci : String) (lm : Option Recency) : String :=
  "-not -path '*/.git/*' " ++ size_filter cats ++
    add_file_ext_filter cats file_pattern ci ++ time_filter lm

/-- Result of `prepare_arguments_for_find`: the `find` argument string, or
the category-resolution exit. -/
inductive FindArgResult where
  | ok (find_arg : String)
  | exit (err : UnknownFileTypeExit)
deriving DecidableEq, Repr

/-- `prepare_arguments_for_find`: with a file-type selector the resolved
categories drive the size/extension filters; without one a single
(case-aware) name test on the file pattern is used.  The time filter is
appended in both branches. -/
def prepare_arguments_for_find (args : Args) : FindArgResult :=
  let ci := case_insensitive_flag args.case_sensitive
  match args.file_type with
  | some sel =>
    match find_file_type_cat_or_exit sel with
    | .ok cats => .ok (find_arg_of_categories cats args.file_pattern ci args.last_modified)
    | .exit e => .exit e
  | none =>
    .ok ("-not -path '*/.git/*' " ++ "-" ++ ci ++ "name '" ++ args.file_pattern ++ "' " ++
      time_filter args.last_modified)

/-- `prepare_arguments_for_grep`: colored grep with file name and line
number display, plus before/after context when the more-context option was
supplied. -/
def prepare_arguments_for_grep (args : Args) : String :=
  "-exec grep --color=always " ++ "--with-filename --line-number " ++
    (match args.more_context with
     | some mc => "--before-context=" ++ mc ++ " " ++ "--after-context=" ++ mc ++ " "
     | none => "")

/-- `self.grep_file_size_threshold`. -/
def grep_file_size_threshold : String := "-size -2000k "

/-- `self.grep_terminator` on the non-Windows platform family (an escaped
semicolon, so `find` does not treat it as a predicate separator). -/
def grep_terminator : String := "\\;"

/-- The interactive creation branch of `parse_default_paths_from_file`
writes the entries typed on stdin (up to the first empty line), one per
line, with no newline after the last one. -/
def written_default_paths_file (typed_entries : List String) : String :=
  String.intercalate "\n" (typed_entries.takeWhile (fun e => e ≠ ""))

/-- Per-line transform applied when reading a saved-path file: strip
trailing whitespace, escape embedded double quotes, expand a leading tilde. -/
def parse_saved_path_line (home : String) (line : String) : String :=
  expanduser home (escape_quotes (rstrip line))

/-- `parse_default_paths_from_file`, with the filesystem and dialog made
explicit: `contents` is the saved-path file's text when it can be opened;
`create_answer` is the yes/no dialog result and `typed_entries` the stdin
lines used when it cannot.  Returns the resolved path list (`self.paths`,
initialized to empty before the read is attempted) and the contents of a
newly written file, if any.  The created file is never read back. -/
def parse_default_paths_from_file (home : String) (contents : Option String)
    (create_answer : Bool) (typed_entries : List String) :
    List String × Option String :=
  match contents with
  | some text => ((python_lines text).map (parse_saved_path_line home), none)
  | none =>
    if create_answer then ([], some (written_default_paths_file typed_entries))
    else ([], none)

/-- The state `invoke_command` runs on: parsed options, the two prepared
argument strings, the resolved path list, and the terminal width reported
by `stty size` (an environment input used only for the verbose separator). -/
structure Search where
  args : Args
  find_arg : String
  grep_arg : String
  paths : List String
  terminal_columns : Nat
deriving DecidableEq, Repr

/-- `assemble_command`: the command string built for one resolved path
inside the loop of `invoke_command`.  With a grep pattern the traversal is
restricted to regular files, the default size ceiling is injected unless
the substring `-size` already occurs anywhere in the command built so far,
and the per-match grep invocation is appended. -/
def assemble_command (s : Search) (path : String) : String :=
  let command := "find '" ++ path ++ "' " ++ s.find_arg
  match s.args.grep with
  | some g =>
    let command := command ++ " -type f "
    let command :=
      if strContains command "-size" then command
      else command ++ grep_file_size_threshold
    let command := command ++ s.grep_arg
    let command :=
      if !s.args.case_sensitive then command ++ "--ignore-case " else command
    command ++ "'" ++ g ++ "'" ++ " {} " ++ grep_terminator
  | none => command

/-- The observable actions of `invoke_command`: text printed to stdout,
warnings, the `stty size` child spawned for the verbose separator, and the
execution of an assembled command as a child process. -/
inductive Event where
  | emitted (text : String)
  | warned (text : String)
  | sttySpawned
  | commandSpawned (command : String)
deriving DecidableEq, Repr

/-- The warning printed when the more-context option is present without a
grep pattern. -/
def more_context_warning : String :=
  "Warning: Option -m,--more-context is only effective in combination with -g"

/-- One iteration of the loop in `invoke_command`: assemble the command;
without a grep pattern, warn if a context value was supplied; in verbose
mode spawn `stty size` and print a separator; print the command in verbose
or show-command mode; execute it unless show-command mode is set. -/
def invoke_for_path (s : Search) (path : String) : List Event :=
  let command := assemble_command s path
  (if s.args.grep.isNone && s.args.more_context.isSome
    then [.warned more_context_warning] else []) ++
  (if s.args.verbose
    then [.sttySpawned, .emitted ⟨List.replicate s.terminal_columns '#'⟩] else []) ++
  (if s.args.verbose || s.args.show_command then [.emitted command] else []) ++
  (if !s.args.show_command then [.commandSpawned command] else [])

/-- `invoke_command`: the loop over all resolved paths. -/
def invoke_command (s : Search) : List Event :=
  (s.paths.map (invoke_for_path s)).flatten

/-- Whether an event is the more-context warning print. -/
def is_warning : Event → Bool
  | .warned _ => true
  | _ => false

/-- The per-line transform the spec's words prescribe for C6: trim only a
trailing newline, then escape embedded double quotes, then expand a
leading tilde.  Stated for comparison with `parse_saved_path_line`, which
follows the source. -/
def spec_line_transform (home s : String) : String :=
  let trimmed : String :=
    match s.data.getLast? with
    | some c => if c = '\n' then ⟨s.data.dropLast⟩ else s
    | none => s
  expanduser home (escape_quotes trimmed)

/-! ### Helper lemmas about the substring test -/

theorem str_contains_aux_iff (needle : List Char) :
    ∀ hay : List Char, str_contains_aux needle hay = true ↔ needle <:+: hay := by
  intro hay
  induction hay with
  | nil =>
    simp [str_contains_aux, List.isEmpty_iff, List.infix_nil]
  | cons c rest ih =>
    simp [str_contains_aux, List.infix_cons_iff, ih, Bool.or_eq_true,
      List.isPrefixOf_iff_prefix]

theorem strContains_iff (s pat : String) :
    strContains s pat = true ↔ pat.data <:+: s.data := by
  rw [strContains, str_contains_aux_iff]

theorem strContains_eq_false_iff (s pat : String) :
    strContains s pat = false ↔ ¬ pat.data <:+: s.data := by
  rw [← strContains_iff]
  cases strContains s pat <;> simp

/-- An occurrence inside the concatenation of two lists lies in the left
part, in the right part, or straddles the boundary with a non-trivial
split of the pattern. -/
theorem infix_append_cases {α : Type} (l x y : List α) (h : l <:+: x ++ y) :
    l <:+: x ∨ l <:+: y ∨
      ∃ n, 0 < n ∧ n < l.length ∧ l.take n <:+ x ∧ l.drop n <+: y := by
  obtain ⟨s, t, hst⟩ := h
  rw [List.append_assoc] at hst
  rcases List.append_eq_append_iff.mp hst with ⟨a, hx, hlt⟩ | ⟨c, _, hy⟩
  · rcases List.append_eq_append_iff.mp hlt with ⟨b, ha, _⟩ | ⟨c, hl, hy2⟩
    · left
      exact ⟨s, b, by rw [List.append_assoc, ← ha, ← hx]⟩
    · by_cases hc : c = []
      · subst hc
        left
        refine ⟨s, [], ?_⟩
        rw [List.append_nil] at hl ⊢
        rw [hl, ← hx]
      · by_cases hA : a = []
        · subst hA
          right; left
          refine ⟨[], t, ?_⟩
          rw [List.nil_append] at hl ⊢
          rw [hl, ← hy2]
        · right; right
          refine ⟨a.length, List.length_pos.mpr hA, ?_, ?_, ?_⟩
          · rw [hl, List.length_append]
            have := List.length_pos.mpr hc
            omega
          · rw [hl, List.take_left]
            exact ⟨s, hx.symm⟩
          · rw [hl, List.drop_left]
            exact ⟨t, hy2.symm⟩
  · right; left
    exact ⟨c, t, by rw [List.append_assoc, ← hy]⟩

theorem strContains_append_right {y pat : String} (x : String)
    (h : strContains y pat = true) : strContains (x ++ y) pat = true := by
  rw [strContains_iff] at h ⊢
  obtain ⟨s, t, hst⟩ := h
  exact ⟨x.data ++ s, t, by rw [String.data_append, ← hst]; simp [List.append_assoc]⟩

theorem strContains_data_congr {s t : String} (pat : String)
    (h : s.data = t.data) : strContains s pat = strContains t pat := by
  rw [strContains, strContains, h]

/-! ### C5, C10, C4: the category registry and selector resolution -/

/-- C5: in the registry built by `create_file_type_categories`, every
hand-authored entry has the match flag set, has exactly one `not-` twin
with identical size and extensions and the match flag cleared, and no
entries exist beyond the hand-authored ones and these twins. -/
theorem registry_not_twins_exact :
    (∀ p ∈ hand_authored_file_type_categories, p.2.matchFlag = true) ∧
    (∀ p ∈ hand_authored_file_type_categories,
      create_file_type_categories.filter (fun q => q.1 = "not-" ++ p.1) =
        [("not-" ++ p.1, { p.2 with matchFlag := false })]) ∧
    create_file_type_categories.length =
      2 * hand_authored_file_type_categories.length ∧
    (∀ q ∈ create_file_type_categories,
      q ∈ hand_authored_file_type_categories ∨
        ∃ p ∈ hand_authored_file_type_categories,
          q = ("not-" ++ p.1, { p.2 with matchFlag := false })) := by
  refine ⟨?_, ?_, ?_, ?_⟩ <;> decide

/-- Witness for C5 at the concrete `image` entry. -/
theorem registry_not_twins_exact_witness :
    create_file_type_categories.filter (fun q => q.1 = "not-" ++ "image") =
      [("not-" ++ "image",
        { size := "+4k", matchFlag := false,
          extensions := ["png", "jpg", "bmp", "gif", "jpeg", "svg", "tif", "tiff"] })] :=
  registry_not_twins_exact.2.1
    ("image", ⟨"+4k", true, ["png", "jpg", "bmp", "gif", "jpeg", "svg", "tif", "tiff"]⟩)
    (by decide)

/-- C10: the selector lookup uses prefix matching, so an empty token (for
example from a trailing comma as in "text,") matches every key and resolves
to the first registry entry in iteration order instead of failing; in any
selector list the empty token itself always succeeds with that first
category, whatever tokens surround it. -/
theorem empty_token_resolves_to_first_category :
    create_file_type_categories.all (fun q => startswith q.1 "") = true ∧
    create_file_type_categories.head? =
      some ("text", ⟨"", true, ["txt", "md", "markdown", "csv", "url"]⟩) ∧
    find_first_matching_category "" =
      some ⟨"", true, ["txt", "md", "markdown", "csv", "url"]⟩ ∧
    (∀ (sel : String) (post : List String),
      resolve_file_types sel ("" :: post) =
        match resolve_file_types sel post with
        | .ok cats => .ok (⟨"", true, ["txt", "md", "markdown", "csv", "url"]⟩ :: cats)
        | .exit e => .exit e) ∧
    split_on_commas "text," = ["text", ""] ∧
    find_file_type_cat_or_exit "text," =
      .ok [⟨"", true, ["txt", "md", "markdown", "csv", "url"]⟩,
           ⟨"", true, ["txt", "md", "markdown", "csv", "url"]⟩] := by
  refine ⟨by decide, rfl, by decide, ?_, rfl, by decide⟩
  intro sel post
  simp only [resolve_file_types,
    show find_first_matching_category "" =
      some ⟨"", true, ["txt", "md", "markdown", "csv", "url"]⟩ from by decide]

/-- C4 counterexample: an unknown token does abort resolution with exit
code 1 and the full choices list, but that list is printed in registry
insertion order (each entry followed by its `not-` twin), not sorted:
"not-text" precedes "markup-text". -/
theorem unknown_selector_choices_not_sorted :
    find_file_type_cat_or_exit "zzz" = .exit ⟨"zzz", file_type_choices, 1⟩ ∧
    ¬ List.Sorted (fun a b : String => a.data ≤ b.data) file_type_choices := by
  constructor
  · decide
  · intro h
    have hmem : ("not-text" : String) ∈
        ("not-text" :: "markup-text" :: file_type_choices.drop 3) := by
      exact List.mem_cons_self _ _
    have hchoices : file_type_choices =
        "text" :: "not-text" :: "markup-text" :: file_type_choices.drop 3 := by
      decide
    rw [hchoices] at h
    have h1 := List.rel_of_sorted_cons h "not-text" hmem
    exact absurd h1 (by decide)

/-- C4 (amended): any token with no prefix-matching registry key aborts the
whole resolution immediately — regardless of the tokens after it — with the
full (insertion-ordered, unsorted) choices list and exit code 1. -/
theorem unknown_selector_aborts_resolution (sel : String)
    (pre : List String) (t : String) (post : List String)
    (hpre : ∀ p ∈ pre, (find_first_matching_category p).isSome)
    (ht : find_first_matching_category t = none) :
    resolve_file_types sel (pre ++ t :: post) =
      .exit ⟨sel, file_type_choices, 1⟩ ∧ (1 : Nat) ≠ 0 := by
  refine ⟨?_, one_ne_zero⟩
  induction pre with
  | nil =>
    simp [resolve_file_types, ht]
  | cons p ps ih =>
    have hp : (find_first_matching_category p).isSome :=
      hpre p (List.mem_cons_self _ _)
    obtain ⟨cat, hcat⟩ := Option.isSome_iff_exists.mp hp
    have hrec : resolve_file_types sel (ps.append (t :: post)) =
        .exit ⟨sel, file_type_choices, 1⟩ :=
      ih (fun x hx => hpre x (List.mem_cons_of_mem _ hx))
    simp only [List.cons_append, resolve_file_types, hcat]
    rw [hrec]

/-- Witness for C4 (amended): a resolvable token, then an unknown one, then
a further token that is never looked at. -/
theorem unknown_selector_aborts_resolution_witness :
    resolve_file_types "te,zzz,audio" (["te"] ++ "zzz" :: ["audio"]) =
      .exit ⟨"te,zzz,audio", file_type_choices, 1⟩ ∧ (1 : Nat) ≠ 0 :=
  unknown_selector_aborts_resolution "te,zzz,audio" ["te"] "zzz" ["audio"]
    (by decide) (by decide)

/-! ### C3: the size predicate in the traversal filter -/

theorem append_space_ne_empty (a b : String) : a ++ b ++ " " ≠ "" := by
  intro h
  have h2 := congrArg String.data h
  simp [String.data_append] at h2

/-- C3: the find argument string decomposes into the fixed prefix, the
size component, the extension group, and the time filter, and the size
component is non-empty exactly when one single category was resolved and
its size field is non-empty (so two or more categories never yield one). -/
theorem size_predicate_iff_single_category (cats : List FileTypeCategory)
    (pattern ci : String) (lm : Option Recency) :
    find_arg_of_categories cats pattern ci lm =
      "-not -path '*/.git/*' " ++ size_filter cats ++
        add_file_ext_filter cats pattern ci ++ time_filter lm ∧
    (size_filter cats ≠ "" ↔ ∃ c, cats = [c] ∧ c.size ≠ "") := by
  refine ⟨rfl, ?_⟩
  rcases cats with _ | ⟨c, _ | ⟨c2, rest⟩⟩
  · simp [size_filter]
  · by_cases hc : c.size = ""
    · simp [size_filter, hc]
    · simp only [size_filter, if_neg hc]
      constructor
      · intro _
        exact ⟨c, rfl, hc⟩
      · intro _
        exact append_space_ne_empty "-size " c.size
  · simp [size_filter]

/-! ### C6, C8: reading the saved-path file -/

/-- C6 counterexample: the source strips all trailing whitespace with
`rstrip()`, not just the trailing newline, so a saved path ending in a
space before its newline loses that space. -/
theorem saved_paths_rstrip_not_only_newline :
    (parse_default_paths_from_file "/home/u" (some "dir \n") true []).1 = ["dir"] ∧
    spec_line_transform "/home/u" "dir \n" = "dir " ∧
    ("dir" : String) ≠ "dir " := ⟨by decide, by decide, by decide⟩

/-- C6 (amended): every line of the saved-path file becomes one resolved
path by stripping trailing whitespace (Python `rstrip`), escaping each
embedded double quote, and expanding a leading tilde; concretely, an entry
with a literal double quote on disk is read back with it escaped. -/
theorem saved_paths_read_transform (home text : String) :
    (parse_default_paths_from_file home (some text) true []).1 =
      (python_lines text).map
        (fun line => expanduser home (escape_quotes (rstrip line))) ∧
    (parse_default_paths_from_file "/home/u" (some "a\"b\n~/doc \n") true []).1 =
      ["a\\\"b", "/home/u/doc"] :=
  ⟨rfl, by decide⟩

/-- C8: when the saved-path file is absent, the resolved path list stays
empty whatever the dialog answer and typed entries are — the interactively
created file is written but never read back — and the invocation phase
over an empty path list assembles and executes nothing. -/
theorem absent_file_yields_no_paths_and_no_commands (home : String)
    (create_answer : Bool) (typed_entries : List String)
    (args : Args) (fa ga : String) (tc : Nat) :
    (parse_default_paths_from_file home none create_answer typed_entries).1 = [] ∧
    (parse_default_paths_from_file home none true typed_entries).2 =
      some (written_default_paths_file typed_entries) ∧
    invoke_command ⟨args, fa, ga, [], tc⟩ = [] := by
  refine ⟨?_, rfl, rfl⟩
  cases create_answer <;> rfl

/-! ### C1, C7: the invocation trace -/

theorem mem_invoke_command {s : Search} {e : Event}
    (he : e ∈ invoke_command s) : ∃ p ∈ s.paths, e ∈ invoke_for_path s p := by
  simp only [invoke_command, List.mem_flatten, List.mem_map] at he
  obtain ⟨l, ⟨p, hp, rfl⟩, hel⟩ := he
  exact ⟨p, hp, hel⟩

/-- C1 (amended): in show-command mode `invoke_command` never executes the
assembled command — no search child process is spawned for any resolved
path, whatever the other flags — and when verbose is not also set it
spawns no child process at all (with verbose it still runs the terminal
width query for the separator). -/
theorem show_command_never_executes (s : Search)
    (h : s.args.show_command = true) :
    (∀ e ∈ invoke_command s, ∀ c, e ≠ Event.commandSpawned c) ∧
    (s.args.verbose = false → ∀ e ∈ invoke_command s, e ≠ Event.sttySpawned) := by
  constructor
  · intro e he c
    obtain ⟨p, _, hep⟩ := mem_invoke_command he
    cases e with
    | emitted t => simp
    | warned t => simp
    | sttySpawned => simp
    | commandSpawned cc =>
      cases hg : (s.args.grep.isNone && s.args.more_context.isSome) <;>
        cases hv : s.args.verbose <;>
          simp [invoke_for_path, h, hg, hv] at hep
  · intro hv e he
    obtain ⟨p, _, hep⟩ := mem_invoke_command he
    cases e with
    | emitted t => simp
    | warned t => simp
    | commandSpawned cc => simp
    | sttySpawned =>
      cases hg : (s.args.grep.isNone && s.args.more_context.isSome) <;>
        simp [invoke_for_path, h, hg, hv] at hep

/-- Witness for C1 (amended) in plain show-command mode. -/
theorem show_command_never_executes_witness :
    (Search.mk { show_command := true } "-name '*' " "" ["."] 5).args.show_command = true ∧
    (∀ e ∈ invoke_command (Search.mk { show_command := true } "-name '*' " "" ["."] 5),
      ∀ c, e ≠ Event.commandSpawned c) :=
  ⟨rfl, (show_command_never_executes (Search.mk { show_command := true } "-name '*' " "" ["."] 5) rfl).1⟩

/-- C1 counterexample: with show-command and verbose both set, the loop
spawns the `stty size` child for the separator — a child process — so
"never spawns a child process regardless of all other flags" fails. -/
theorem show_command_with_verbose_spawns_stty :
    Event.sttySpawned ∈
      invoke_command
        (Search.mk { show_command := true, verbose := true } "-name '*' " "" ["."] 5) := by
  decide

/-- One loop iteration with a context value but no grep pattern emits the
warning and otherwise behaves as the same state with no context value
(the assembled command does not mention the context setting). -/
theorem invoke_for_path_context_warning (args : Args) (fa ga ga' : String)
    (tc : Nat) (paths paths' : List String) (p mc : String)
    (hg : args.grep = none) (hm : args.more_context = some mc) :
    invoke_for_path (Search.mk args fa ga paths tc) p =
      Event.warned more_context_warning ::
        invoke_for_path (Search.mk { args with more_context := none } fa ga' paths' tc) p := by
  have hcmd : assemble_command (Search.mk args fa ga paths tc) p =
      assemble_command (Search.mk { args with more_context := none } fa ga' paths' tc) p := by
    simp [assemble_command, hg]
  simp [invoke_for_path, hg, hm, hcmd]

/-- A loop iteration with no context value emits no warning. -/
theorem invoke_for_path_no_context_no_warning (args : Args)
    (fa ga : String) (tc : Nat) (paths : List String) (p : String)
    (hm : args.more_context = none) :
    (invoke_for_path (Search.mk args fa ga paths tc) p).countP is_warning = 0 := by
  cases hv : args.verbose <;> cases hs : args.show_command <;>
    simp [invoke_for_path, hm, hv, hs, is_warning]

/-- C7 (amended): a context value without a grep pattern produces exactly
one warning per resolved path (so exactly one in the single-path case),
and apart from the warnings the trace — including every assembled
command — is identical to the run with no context value. -/
theorem context_without_grep_warns_per_path (args : Args)
    (fa ga ga' : String) (tc : Nat) (paths : List String) (mc : String)
    (hg : args.grep = none) (hm : args.more_context = some mc) :
    (invoke_command (Search.mk args fa ga paths tc)).countP is_warning = paths.length ∧
    (invoke_command (Search.mk args fa ga paths tc)).filter (fun e => !is_warning e) =
      (invoke_command (Search.mk { args with more_context := none } fa ga' paths tc)).filter
        (fun e => !is_warning e) := by
  have hstep : ∀ q, invoke_for_path (Search.mk args fa ga paths tc) q =
      Event.warned more_context_warning ::
        invoke_for_path (Search.mk { args with more_context := none } fa ga' paths tc) q :=
    fun q => invoke_for_path_context_warning args fa ga ga' tc paths paths q mc hg hm
  have hwfree : ∀ q,
      (invoke_for_path (Search.mk { args with more_context := none } fa ga' paths tc) q).countP
        is_warning = 0 :=
    fun q => invoke_for_path_no_context_no_warning { args with more_context := none }
      fa ga' tc paths q rfl
  suffices hL : ∀ L : List String,
      ((L.map (invoke_for_path (Search.mk args fa ga paths tc))).flatten.countP is_warning
        = L.length) ∧
      ((L.map (invoke_for_path (Search.mk args fa ga paths tc))).flatten.filter
          (fun e => !is_warning e) =
        (L.map (invoke_for_path
            (Search.mk { args with more_context := none } fa ga' paths tc))).flatten.filter
          (fun e => !is_warning e)) by
    exact hL paths
  intro L
  induction L with
  | nil => exact ⟨rfl, rfl⟩
  | cons q qs ih =>
    obtain ⟨ih1, ih2⟩ := ih
    constructor
    · simp only [List.map_cons, List.flatten_cons, List.countP_append, ih1, hstep q]
      rw [List.countP_cons_of_pos _ _ (by simp [is_warning]), hwfree q]
      simp [Nat.add_comm]
    · simp only [List.map_cons, List.flatten_cons, List.filter_append, ih2, hstep q]
      rw [List.filter_cons_of_neg (by simp [is_warning])]

/-- Witness for C7 (amended) at a single concrete path. -/
theorem context_without_grep_warns_per_path_witness :
    ({ more_context := some "2" } : Args).grep = none ∧
    ((invoke_command (Search.mk { more_context := some "2" } "-name '*' " "GA" ["/a"] 3)).countP
        is_warning = (["/a"] : List String).length ∧
      (invoke_command (Search.mk { more_context := some "2" } "-name '*' " "GA" ["/a"] 3)).filter
          (fun e => !is_warning e) =
        (invoke_command (Search.mk { more_context := none } "-name '*' " "GB" ["/a"] 3)).filter
          (fun e => !is_warning e)) :=
  ⟨rfl, context_without_grep_warns_per_path { more_context := some "2" }
    "-name '*' " "GA" "GB" 3 ["/a"] "2" rfl rfl⟩

/-- C7 counterexample: with two resolved paths the warning is emitted once
per path — twice, not exactly once. -/
theorem context_warning_emitted_twice :
    (invoke_command (Search.mk { more_context := some "2" } "-name '*' " "" ["/a", "/b"] 5)).countP
      is_warning = 2 ∧ (2 : Nat) ≠ 1 := ⟨by decide, by decide⟩

/-! ### C2, C9: the assembled command and the -size suppression check -/

theorem string_data_ext {s t : String} (h : s.data = t.data) : s = t := by
  cases s
  cases t
  exact congrArg String.mk h

theorem not_infix_of_parts {l x y : List Char}
    (hx : ¬ l <:+: x) (hy : ¬ l <:+: y)
    (hstraddle : ∀ n, 0 < n → n < l.length → ¬ (l.take n <:+ x ∧ l.drop n <+: y)) :
    ¬ l <:+: x ++ y := by
  intro h
  rcases infix_append_cases l x y h with h1 | h2 | ⟨n, hn0, hnl, hts, htp⟩
  · exact hx h1
  · exact hy h2
  · exact hstraddle n hn0 hnl ⟨hts, htp⟩

/-- For any path not containing `-size`, the check guarding the default
grep size ceiling comes out false on the command assembled for the C2
option set (no occurrence can straddle the boundaries around the path). -/
theorem txt_todo_no_size_check (p : String)
    (hp : strContains p "-size" = false) :
    strContains
      ("find '" ++ p ++ "' " ++ "-not -path '*/.git/*' -iname '*.txt' " ++ " -type f ")
      "-size" = false := by
  rw [strContains_eq_false_iff] at hp ⊢
  have hsplit :
      ("find '" ++ p ++ "' " ++ "-not -path '*/.git/*' -iname '*.txt' " ++ " -type f ").data
        = "find '".data ++
            (p.data ++ "' -not -path '*/.git/*' -iname '*.txt'  -type f ".data) := by
    simp only [String.data_append, List.append_assoc]
    congr 2
  rw [hsplit]
  refine not_infix_of_parts (by decide) ?_ ?_
  · refine not_infix_of_parts hp (by decide) ?_
    have hdec : ∀ n, n < ("-size".data).length → 0 < n →
        ¬ (("-size".data).drop n <+:
            "' -not -path '*/.git/*' -iname '*.txt'  -type f ".data) := by decide
    intro n hn0 hnl hc
    exact hdec n hnl hn0 hc.2
  · have hdec : ∀ n, n < ("-size".data).length → 0 < n →
        ¬ (("-size".data).take n <:+ "find '".data) := by decide
    intro n hn0 hnl hc
    exact hdec n hnl hn0 hc.1

/-- C2 (amended): for the option set {file_pattern "*.txt", grep "TODO"}
with no category and no recency, parsing leaves the options unchanged, the
two argument builders produce the expected fragments, and for every
resolved path that does not itself contain the substring `-size` the
assembled command carries the case-insensitive name test on `*.txt`, the
regular-file restriction, the injected default size ceiling, and the
per-match grep invocation with case-insensitive matching and file name and
line number display. -/
theorem txt_todo_assembled_command (p : String)
    (hp : strContains p "-size" = false) :
    parse_arguments { file_pattern := "*.txt", grep := some "TODO" } =
      { file_pattern := "*.txt", grep := some "TODO" } ∧
    prepare_arguments_for_find { file_pattern := "*.txt", grep := some "TODO" } =
      .ok "-not -path '*/.git/*' -iname '*.txt' " ∧
    prepare_arguments_for_grep { file_pattern := "*.txt", grep := some "TODO" } =
      "-exec grep --color=always --with-filename --line-number " ∧
    assemble_command
      (Search.mk { file_pattern := "*.txt", grep := some "TODO" }
        "-not -path '*/.git/*' -iname '*.txt' "
        "-exec grep --color=always --with-filename --line-number " [p] 80) p =
      "find '" ++ p ++
        "' -not -path '*/.git/*' -iname '*.txt'  -type f -size -2000k -exec grep --color=always --with-filename --line-number --ignore-case 'TODO' {} \\;" ∧
    (∀ pat ∈ ["-iname '*.txt'", "-type f", "-size -2000k",
        "--ignore-case", "--with-filename", "--line-number"],
      strContains
        (assemble_command
          (Search.mk { file_pattern := "*.txt", grep := some "TODO" }
            "-not -path '*/.git/*' -iname '*.txt' "
            "-exec grep --color=always --with-filename --line-number " [p] 80) p)
        pat = true) := by
  have hcond := txt_todo_no_size_check p hp
  have hd : assemble_command
      (Search.mk { file_pattern := "*.txt", grep := some "TODO" }
        "-not -path '*/.git/*' -iname '*.txt' "
        "-exec grep --color=always --with-filename --line-number " [p] 80) p =
      "find '" ++ p ++
        "' -not -path '*/.git/*' -iname '*.txt'  -type f -size -2000k -exec grep --color=always --with-filename --line-number --ignore-case 'TODO' {} \\;" := by
    apply string_data_ext
    simp [assemble_command, hcond, String.data_append, List.append_assoc,
      grep_file_size_threshold, grep_terminator]
  refine ⟨by decide, by decide, by decide, hd, ?_⟩
  intro pat hpat
  rw [hd]
  fin_cases hpat <;> exact strContains_append_right _ (by decide)

/-- Witness for C2 (amended) at the default search path. -/
theorem txt_todo_assembled_command_witness :
    strContains "." "-size" = false ∧
    assemble_command
      (Search.mk { file_pattern := "*.txt", grep := some "TODO" }
        "-not -path '*/.git/*' -iname '*.txt' "
        "-exec grep --color=always --with-filename --line-number " ["."] 80) "." =
      "find '" ++ "." ++
        "' -not -path '*/.git/*' -iname '*.txt'  -type f -size -2000k -exec grep --color=always --with-filename --line-number --ignore-case 'TODO' {} \\;" :=
  ⟨by decide, (txt_todo_assembled_command "." (by decide)).2.2.2.1⟩

/-- C2 counterexample: a resolved path containing the substring `-size`
defeats the injection of the default size ceiling, so the claim does not
hold for every resolved path. -/
theorem txt_todo_size_in_path_no_default :
    strContains
      (assemble_command
        (Search.mk { file_pattern := "*.txt", grep := some "TODO" }
          "-not -path '*/.git/*' -iname '*.txt' "
          "-exec grep --color=always --with-filename --line-number " ["/x-size"] 80)
        "/x-size")
      "-size -2000k" = false := by decide

end SearchTool
